import Mathlib

/-!
Shallow embedding of `src/mainloop.py` (the `ClaudeCodeAgent` control loop).

Pure data and the control-flow skeleton are translated directly from the
source.  External collaborators that the source calls but does not define
(`_call_api`, `_extract_final_result`, the tool executors, the permission
prompt, the filesystem todo store) are abstracted into an `Env` record of
oracle functions, and the todo directory is modelled as an explicit list of
(filename, decoded JSON content) pairs threaded through the loop.
The unbounded `while True` loop and the recursive sub-agent spawn are made
total with an explicit fuel parameter.
-/

set_option linter.unusedVariables false

namespace MainLoop

/-- `ModelType` enum from the source. -/
inductive ModelType
  | OPUS
  | SONNET
  | HAIKU
deriving DecidableEq

/-- Message roles: `"user"`, `"assistant"`, `"system"`. -/
inductive Role
  | user
  | assistant
  | system
deriving DecidableEq

/-- The dict values folded back as tool results: the `Task` branch returns
`{"task": ..., "result": ...}`, other executors return `{"summary": ..., ...}`. -/
inductive ToolResultV
  | taskResult (task : String) (result : String)
  | generic (summary : String) (output : String)
deriving DecidableEq

/-- `Message` dataclass: role, content, optional tool results.
(`tool_calls` of a `Message` is never read by the loop, so it is omitted.) -/
structure Message where
  role : Role
  content : String := ""
  tool_results : Option (List ToolResultV) := none
deriving DecidableEq

/-- `TodoItem` dataclass. -/
structure TodoItem where
  id : Nat
  description : String
  completed : Bool := false
deriving DecidableEq

/-- One entry of a persisted todo snapshot: `{"description": ..., "completed": ...}`,
with `completed` possibly missing (`item.get('completed', False)`). -/
structure TodoJson where
  description : String
  completed : Option Bool := none
deriving DecidableEq

/-- A tool call dict `{'tool': ..., 'params': {...}}`, with string-valued params. -/
structure ToolCallV where
  tool : String
  params : List (String × String) := []
deriving DecidableEq

/-- `Context` dataclass. -/
structure Context where
  messages : List Message
  todo_list : List TodoItem
  current_directory : String
  claude_md_content : String
  recent_commits : List String
  platform_info : List (String × String)
deriving DecidableEq

/-- The mutable agent state: its context, current model, and sub-agent depth. -/
structure Agent where
  context : Context
  current_model : ModelType := ModelType.SONNET
  sub_agent_depth : Nat := 0
deriving DecidableEq

/-- `MAX_SUB_AGENT_DEPTH = 1  # Maximum one branch as per architecture`. -/
def MAX_SUB_AGENT_DEPTH : Nat := 1

/-- The todo directory `~/.claude/todos/`: a listing of (filename, decoded file
content) pairs. -/
abbrev Store := List (String × List TodoJson)

/-- What `_get_model_response` returns, per the ModelClient interface:
assistant content, tool calls, and a completion signal. -/
structure ModelResponse where
  content : String := ""
  tool_calls : List ToolCallV := []
  completion_signal : Bool := false

/-- The opaque collaborators of the loop, resolved into oracle functions. -/
structure Env where
  quotaOk : Bool
  isNewTopic : Bool
  startReminder : String
  endReminder : String
  estimateTokens : String → Nat
  compactText : List Message → String
  modelResponse : List Message → ModelResponse
  permission : ToolCallV → Bool
  execTool : ToolCallV → ToolResultV
  extractFinalResult : Context → String
  snapshotName : Nat → String

/-- Python `params.get(key, default)` on a string-valued dict. -/
def dictGet (params : List (String × String)) (key : String) (dflt : String) : String :=
  match params.find? (fun kv => kv.1 == key) with
  | some kv => kv.2
  | none => dflt

/-- Python `s.endswith(suffix)`. -/
def strEndsWith (s suffix : String) : Bool :=
  suffix.data.isSuffixOf s.data

/-- `_inject_system_reminders`: `messages.insert(0, start)` then `messages.append(end)`. -/
def injectSystemReminders (startReminder endReminder : String) (ctx : Context) : Context :=
  { ctx with messages :=
      ⟨Role.system, startReminder, none⟩ :: (ctx.messages ++ [⟨Role.system, endReminder, none⟩]) }

/-- Steps 2 and 3 of `main_loop`: inject the two reminders, then append the
user message. -/
def prepareContext (env : Env) (user_input : String) (ctx : Context) : Context :=
  let ctx := injectSystemReminders env.startReminder env.endReminder ctx
  { ctx with messages := ctx.messages ++ [⟨Role.user, user_input, none⟩] }

/-- `_context_needs_compaction`: summed token estimate over message contents
against the fixed 100000 threshold. -/
def contextNeedsCompaction (estimateTokens : String → Nat) (ctx : Context) : Bool :=
  decide ((ctx.messages.map (fun msg => estimateTokens msg.content)).sum > 100000)

/-- `_compact_context` (the successful-call case): replace all messages with a
single system message holding the compressed transcript. -/
def compactContext (compressed : String) (ctx : Context) : Context :=
  { ctx with messages := [⟨Role.system, compressed, none⟩] }

/-- The `.json`-suffixed filenames of the todo directory
(`[f for f in os.listdir(todos_dir) if f.endswith('.json')]`). -/
def snapshotNames (store : Store) : List String :=
  (store.map Prod.fst).filter (fun f => strEndsWith f ".json")

/-- Decoding a snapshot: ids reassigned by 0-based position, `completed`
defaulting to `False` when missing. -/
def decodeTodoItems (todo_data : List TodoJson) : List TodoItem :=
  todo_data.enum.map (fun p => ⟨p.1, p.2.description, p.2.completed.getD false⟩)

/-- Lexicographic string comparison (Python's default string order), decided
structurally through the character list. -/
def strLeDec (a b : String) : Decidable (a ≤ b) :=
  decidable_of_iff (a.data ≤ b.data) (String.le_iff_toList_le).symm

/-- The comparison `sorted` uses, packaged as a decidable relation. -/
def strLeRel : DecidableRel (fun a b : String => a ≤ b) := fun a b => strLeDec a b

/-- `_load_todo_from_json`: sort the `.json` filenames, open the last
(`todo_files[-1]`), decode it; `[]` when the listing is empty. -/
def loadTodoFromJson (store : Store) : List TodoItem :=
  let todo_files := @List.insertionSort String (fun a b => a ≤ b) strLeRel (snapshotNames store)
  match todo_files.getLast? with
  | none => []
  | some name =>
    match store.find? (fun entry => entry.1 == name) with
    | none => []
    | some entry => decodeTodoItems entry.2

/-- `_update_todo_json`: the snapshot content written on a TodoWrite call —
the serialization of the agent's in-memory todo list; `params` is accepted
and ignored, as in the source. -/
def updateTodoJson (params : List (String × String)) (agent : Agent) : List TodoJson :=
  agent.context.todo_list.map (fun task => ⟨task.description, some task.completed⟩)

/-- `_should_exit`: all todos complete and the list non-empty.  (The source
defines it with no response parameter; the model response plays no part.) -/
def shouldExit (agent : Agent) : Bool :=
  let all_complete := agent.context.todo_list.all (fun task => task.completed)
  all_complete && decide (agent.context.todo_list.length > 0)

/-- The sub-agent constructed by `_spawn_sub_agent_for_task` before its loop
runs: depth `parent.depth + 1`, fresh messages `[user task_description]`,
empty todos, the four metadata fields taken from the parent.  There is no
depth guard in the source. -/
def spawnChildInit (parent : Agent) (task_description : String) : Agent :=
  { context :=
      { messages := [⟨Role.user, task_description, none⟩]
        todo_list := []
        current_directory := parent.context.current_directory
        claude_md_content := parent.context.claude_md_content
        recent_commits := parent.context.recent_commits
        platform_info := parent.context.platform_info }
    current_model := ModelType.SONNET
    sub_agent_depth := parent.sub_agent_depth + 1 }

/-- The child runner a dispatch uses for `Task` calls: runs the child's full
main loop, returning the child's final state and the resulting store. -/
abbrev RunChild := Agent → Store → String → Agent × Store

/-- The body of the per-tool-call branch of `main_loop` (lines 148-167):
`Task` spawns a child and folds one "Task completed" message; `TodoWrite`
writes a snapshot of the in-memory todo list; anything else runs only if the
permission gate approves, appending a result message — on denial nothing
happens. -/
def dispatchOne (env : Env) (runChild : RunChild) (agent : Agent) (store : Store)
    (tool_call : ToolCallV) : Agent × Store :=
  if tool_call.tool == "Task" then
    let task_description := dictGet tool_call.params "task" ""
    let sub_agent := spawnChildInit agent task_description
    let child := runChild sub_agent store task_description
    let final_result := env.extractFinalResult child.1.context
    let result := ToolResultV.taskResult task_description final_result
    ({ agent with context :=
        { agent.context with messages :=
            agent.context.messages ++ [⟨Role.assistant, "Task completed", some [result]⟩] } },
     child.2)
  else if tool_call.tool == "TodoWrite" then
    (agent, store ++ [(env.snapshotName store.length, updateTodoJson tool_call.params agent)])
  else
    if env.permission tool_call then
      let result := env.execTool tool_call
      ({ agent with context :=
          { agent.context with messages :=
              agent.context.messages ++ [⟨Role.assistant, "", some [result]⟩] } },
       store)
    else (agent, store)

/-- The `for tool_call in response.tool_calls` loop: sequential dispatch. -/
def procToolCalls (env : Env) (runChild : RunChild) :
    Agent → Store → List ToolCallV → Agent × Store
  | agent, store, [] => (agent, store)
  | agent, store, tool_call :: rest =>
    let next := dispatchOne env runChild agent store tool_call
    procToolCalls env runChild next.1 next.2 rest

/-- Lines 137-140 of `main_loop`: reload the todo list, overwriting the
in-memory list only when the loaded list is truthy (non-empty). -/
def syncTodoStep (store : Store) (agent : Agent) : Agent :=
  let todo_list := loadTodoFromJson store
  if !todo_list.isEmpty then
    { agent with context := { agent.context with todo_list := todo_list } }
  else agent

/-- One iteration of the `while True` processing loop: compaction check, todo
reload, model call, tool dispatch. -/
def processingIteration (env : Env) (runChild : RunChild) (agent : Agent) (store : Store) :
    Agent × Store :=
  let agent :=
    if contextNeedsCompaction env.estimateTokens agent.context then
      { agent with current_model := ModelType.SONNET,
                   context := compactContext (env.compactText agent.context.messages) agent.context }
    else agent
  let agent := syncTodoStep store agent
  let response := env.modelResponse agent.context.messages
  procToolCalls env runChild agent store response.tool_calls

/-- How one `main_loop` invocation ends. -/
inductive RunOutcome
  | quotaExceeded
  | completed
  | outOfFuel
deriving DecidableEq

/-- The `while True` loop with fuel: iterate, then break when `_should_exit`. -/
def procLoop (env : Env) (runChild : RunChild) :
    Nat → Agent → Store → RunOutcome × Agent × Store
  | 0, agent, store => (RunOutcome.outOfFuel, agent, store)
  | fuel + 1, agent, store =>
    let next := processingIteration env runChild agent store
    if shouldExit next.1 then (RunOutcome.completed, next.1, next.2)
    else procLoop env runChild fuel next.1 next.2

/-- `main_loop(user_input)`: quota check (model set to Haiku; abort on
failure), topic detection, reminder injection, user message append, the
processing loop at Sonnet, and on normal exit the Haiku summarization. -/
def runMain : Nat → Env → Agent → Store → String → RunOutcome × Agent × Store
  | 0, _, agent, store, _ => (RunOutcome.outOfFuel, agent, store)
  | fuel + 1, env, agent, store, user_input =>
    let agent := { agent with current_model := ModelType.HAIKU }
    if !env.quotaOk then (RunOutcome.quotaExceeded, agent, store)
    else
      let agent := { agent with current_model := ModelType.HAIKU }
      let agent := { agent with context := prepareContext env user_input agent.context }
      let agent := { agent with current_model := ModelType.SONNET }
      let runChild : RunChild := fun a s d =>
        let r := runMain fuel env a s d
        (r.2.1, r.2.2)
      let r := procLoop env runChild fuel agent store
      match r.1 with
      | RunOutcome.completed =>
          (RunOutcome.completed, { r.2.1 with current_model := ModelType.HAIKU }, r.2.2)
      | o => (o, r.2.1, r.2.2)

/-! Concrete fixtures used by witnesses and counterexamples. -/

/-- An environment with quota available, zero token estimates, a model that
answers with no tool calls and no completion signal, an always-approving
permission gate. -/
def envOk : Env :=
  { quotaOk := true
    isNewTopic := false
    startReminder := "ENV"
    endReminder := "TODO-REM"
    estimateTokens := fun _ => 0
    compactText := fun _ => "compressed"
    modelResponse := fun _ => {}
    permission := fun _ => true
    execTool := fun _ => ToolResultV.generic "ok" ""
    extractFinalResult := fun _ => "done"
    snapshotName := fun n => "todo_" ++ toString n ++ ".json" }

/-- `envOk` with a model that raises the explicit completion signal. -/
def envSignal : Env :=
  { envOk with modelResponse := fun _ => { completion_signal := true } }

/-- `envOk` with a permission gate that denies everything. -/
def envDeny : Env :=
  { envOk with permission := fun _ => false }

/-- A fresh context, as after `_initialize_context` with no CLAUDE.md and no
commits. -/
def emptyContext : Context :=
  { messages := []
    todo_list := []
    current_directory := "/p"
    claude_md_content := ""
    recent_commits := []
    platform_info := [] }

/-- A fresh root agent. -/
def agent0 : Agent := { context := emptyContext }

/-- An agent already at the declared maximum sub-agent depth. -/
def parentAtMaxDepth : Agent := { context := emptyContext, sub_agent_depth := MAX_SUB_AGENT_DEPTH }

/-- An agent holding one pending in-memory todo item. -/
def agentWithTodo : Agent :=
  { context := { emptyContext with todo_list := [⟨0, "x", false⟩] } }

/-- A `Task` tool call. -/
def taskCall : ToolCallV := { tool := "Task", params := [("task", "find all TODOs")] }

/-- An `edit` tool call (one of the permission-gated kinds). -/
def editCall : ToolCallV := { tool := "edit" }

/-- A child runner that runs no child loop at all: it returns the child
unchanged.  Dispatch-level theorems quantify over arbitrary runners; this one
instantiates them. -/
def runChildNoop : RunChild := fun a s _ => (a, s)

/-- A store holding one snapshot whose only item is completed. -/
def storeDone : Store := [("todo_1.json", [⟨"write tests", some true⟩])]

/-- A store holding exactly one snapshot, an empty list. -/
def storeEmptySnap : Store := [("todo_20240101_000000.json", [])]

/-- A store with two snapshots and one non-snapshot file. -/
def storeTwo : Store :=
  [("todo_20240101_120000.json", [⟨"a", some true⟩])
  , ("todo_20240102_120000.json", [⟨"write tests", none⟩])
  , ("notes.txt", [])]

/-! Claim theorems. -/

/-- Claim C6: compaction, whenever it succeeds, replaces the whole message
sequence with exactly one system message (the compressed transcript),
discarding all prior messages, and is idempotent in effect: compacting twice
with no new messages in between gives the same single-system-message state,
modulo the regenerated text. -/
theorem compaction_single_message_idempotent (ctx : Context) (s s' : String) :
    (compactContext s ctx).messages = [⟨Role.system, s, none⟩] ∧
    (compactContext s ctx).messages.length = 1 ∧
    compactContext s' (compactContext s ctx) = compactContext s' ctx ∧
    (compactContext s' (compactContext s ctx)).messages.map Message.role =
      (compactContext s ctx).messages.map Message.role :=
  ⟨rfl, rfl, rfl, rfl⟩

/-- Claim C10: the snapshot written by a `TodoWrite` dispatch is the
serialization (description and completed flag per item) of the agent's
in-memory todo list; the params carried by the call never influence the
written snapshot, and the dispatch changes nothing but the store. -/
theorem todo_write_ignores_params (env : Env) (runChild : RunChild) (agent : Agent)
    (store : Store) (params1 params2 : List (String × String)) :
    updateTodoJson params1 agent =
      agent.context.todo_list.map (fun task => ⟨task.description, some task.completed⟩) ∧
    updateTodoJson params1 agent = updateTodoJson params2 agent ∧
    dispatchOne env runChild agent store ⟨"TodoWrite", params1⟩ =
      (agent, store ++ [(env.snapshotName store.length,
        agent.context.todo_list.map (fun task => ⟨task.description, some task.completed⟩))]) ∧
    dispatchOne env runChild agent store ⟨"TodoWrite", params1⟩ =
      dispatchOne env runChild agent store ⟨"TodoWrite", params2⟩ :=
  ⟨rfl, rfl, rfl, rfl⟩

/-- Claim C9: if the quota check fails, `main_loop` returns immediately with
the quota-exceeded outcome; the context (in particular its message list) is
exactly the initial one — no reminders, no user message — and no processing
iteration ran. -/
theorem quota_fail_aborts (fuel : Nat) (env : Env) (agent : Agent) (store : Store)
    (user_input : String) (h : env.quotaOk = false) :
    runMain (fuel + 1) env agent store user_input =
      (RunOutcome.quotaExceeded, { agent with current_model := ModelType.HAIKU }, store) ∧
    (runMain (fuel + 1) env agent store user_input).2.1.context = agent.context ∧
    (runMain (fuel + 1) env agent store user_input).2.1.context.messages =
      agent.context.messages := by
  refine ⟨?_, ?_, ?_⟩ <;> simp [runMain, h]

/-- Witness for C9 at a concrete failing quota. -/
theorem quota_fail_aborts_witness :
    Env.quotaOk { envOk with quotaOk := false } = false ∧
    runMain 1 { envOk with quotaOk := false } agent0 [] "fix bug" =
      (RunOutcome.quotaExceeded, { agent0 with current_model := ModelType.HAIKU }, []) :=
  ⟨rfl, (quota_fail_aborts 0 { envOk with quotaOk := false } agent0 [] "fix bug" rfl).1⟩

/-- Claim C1 (code bug): the source declares `MAX_SUB_AGENT_DEPTH = 1` but
never reads it — dispatching a `Task` call from a parent already at that
depth constructs and runs a child at depth 2 and folds a normal
"Task completed" result instead of rejecting the spawn as a tool error. -/
theorem depth_limit_not_enforced :
    (spawnChildInit parentAtMaxDepth "find all TODOs").sub_agent_depth =
        MAX_SUB_AGENT_DEPTH + 1 ∧
    MAX_SUB_AGENT_DEPTH = 1 ∧
    (dispatchOne envOk runChildNoop parentAtMaxDepth [] taskCall).1.context.messages =
      [⟨Role.assistant, "Task completed",
        some [ToolResultV.taskResult "find all TODOs" "done"]⟩] :=
  ⟨rfl, rfl, rfl⟩

/-- Claim C4 counterexample: at a concrete permission-gated call that the gate
denies, the dispatch leaves the Context exactly as it was — no Message
reflecting the denial is appended, refuting the claim's denial-record part. -/
theorem denial_appends_no_message :
    envDeny.permission editCall = false ∧
    (dispatchOne envDeny runChildNoop agent0 [] editCall).1.context.messages = [] ∧
    (dispatchOne envDeny runChildNoop agent0 [] editCall).1 = agent0 :=
  ⟨rfl, rfl, rfl⟩

/-- Claim C4 (amended): when the permission gate denies a gated tool call, the
tool is not executed and the loop continues with the remaining calls, but no
message of any kind is appended — the denial is silent and the agent state is
unchanged. -/
theorem denial_skips_silently (env : Env) (runChild : RunChild) (agent : Agent)
    (store : Store) (tool_call : ToolCallV) (rest : List ToolCallV)
    (h1 : tool_call.tool ≠ "Task") (h2 : tool_call.tool ≠ "TodoWrite")
    (h3 : env.permission tool_call = false) :
    dispatchOne env runChild agent store tool_call = (agent, store) ∧
    procToolCalls env runChild agent store (tool_call :: rest) =
      procToolCalls env runChild agent store rest := by
  have hd : dispatchOne env runChild agent store tool_call = (agent, store) := by
    simp [dispatchOne, h1, h2, h3]
  exact ⟨hd, by simp [procToolCalls, hd]⟩

/-- Witness for C4's amended theorem at a concrete denied call. -/
theorem denial_skips_silently_witness :
    envDeny.permission editCall = false ∧
    dispatchOne envDeny runChildNoop agentWithTodo storeDone editCall =
      (agentWithTodo, storeDone) ∧
    procToolCalls envDeny runChildNoop agentWithTodo storeDone [editCall] =
      procToolCalls envDeny runChildNoop agentWithTodo storeDone [] := by
  have h := denial_skips_silently envDeny runChildNoop agentWithTodo storeDone editCall []
    (by decide) (by decide) rfl
  exact ⟨rfl, h.1, h.2⟩

/-- Claim C5 (code bug): on a fresh run, after reminder injection and the
user-message append, the todo-memory reminder sits before the user message,
not after it: the run produces `[system "ENV", system "TODO-REM", user ...]`,
although the source's own comment says the two reminders wrap around the
first user message. -/
theorem reminder_injection_order :
    (runMain 2 envOk agent0 storeDone "fix bug").2.1.context.messages =
      [⟨Role.system, "ENV", none⟩, ⟨Role.system, "TODO-REM", none⟩,
       ⟨Role.user, "fix bug", none⟩] ∧
    (runMain 2 envOk agent0 storeDone "fix bug").1 = RunOutcome.completed ∧
    prepareContext envOk "fix bug" emptyContext =
      { emptyContext with messages :=
          [⟨Role.system, "ENV", none⟩, ⟨Role.system, "TODO-REM", none⟩,
           ⟨Role.user, "fix bug", none⟩] } :=
  ⟨rfl, rfl, rfl⟩

/-- A dispatch never changes the agent's todo list (only messages and the
store). -/
theorem dispatchOne_todo_eq (env : Env) (runChild : RunChild) (agent : Agent)
    (store : Store) (tool_call : ToolCallV) :
    (dispatchOne env runChild agent store tool_call).1.context.todo_list =
      agent.context.todo_list := by
  simp only [dispatchOne]
  split
  · rfl
  · split
    · rfl
    · split <;> rfl

/-- Sequential dispatch of a batch of tool calls never changes the todo list. -/
theorem procToolCalls_todo_eq (env : Env) (runChild : RunChild) :
    ∀ (calls : List ToolCallV) (agent : Agent) (store : Store),
      (procToolCalls env runChild agent store calls).1.context.todo_list =
        agent.context.todo_list := by
  intro calls
  induction calls with
  | nil => intro agent store; rfl
  | cons c rest ih =>
    intro agent store
    simp only [procToolCalls]
    rw [ih, dispatchOne_todo_eq]

/-- The todo list after the sync step, as a function of the loaded snapshot. -/
theorem syncTodoStep_todo (store : Store) (agent : Agent) :
    (syncTodoStep store agent).context.todo_list =
      if !(loadTodoFromJson store).isEmpty then loadTodoFromJson store
      else agent.context.todo_list := by
  simp only [syncTodoStep]
  split <;> rfl

/-- Within one processing iteration the todo list is exactly what the sync
step produced: nothing later in the iteration touches it. -/
theorem processingIteration_todo (env : Env) (runChild : RunChild) (agent : Agent)
    (store : Store) :
    (processingIteration env runChild agent store).1.context.todo_list =
      (syncTodoStep store agent).context.todo_list := by
  simp only [processingIteration]
  rw [procToolCalls_todo_eq, syncTodoStep_todo, syncTodoStep_todo]
  split
  · rfl
  · split <;> rfl

/-- Claim C8 counterexample: with a store holding exactly one snapshot whose
content is the empty list, the in-memory todo list survives the sync step —
and the whole processing iteration — unchanged, refuting "including when the
loaded snapshot is an empty list". -/
theorem empty_snapshot_not_loaded :
    snapshotNames storeEmptySnap = ["todo_20240101_000000.json"] ∧
    loadTodoFromJson storeEmptySnap = [] ∧
    (syncTodoStep storeEmptySnap agentWithTodo).context.todo_list = [⟨0, "x", false⟩] ∧
    (processingIteration envOk runChildNoop agentWithTodo storeEmptySnap).1.context.todo_list =
      [⟨0, "x", false⟩] :=
  ⟨rfl, rfl, rfl, rfl⟩

/-- Claim C8 (amended): on every processing iteration the todo list is
reloaded, and the in-memory list is overwritten exactly when the loaded
snapshot is non-empty; an empty loaded snapshot (or no snapshot) leaves the
agent unchanged. -/
theorem sync_overwrites_iff_nonempty (env : Env) (runChild : RunChild)
    (store : Store) (agent : Agent) :
    (loadTodoFromJson store ≠ [] →
      (syncTodoStep store agent).context.todo_list = loadTodoFromJson store) ∧
    (loadTodoFromJson store = [] → syncTodoStep store agent = agent) ∧
    (processingIteration env runChild agent store).1.context.todo_list =
      (syncTodoStep store agent).context.todo_list := by
  refine ⟨?_, ?_, processingIteration_todo env runChild agent store⟩
  · intro h
    have he : (loadTodoFromJson store).isEmpty = false := by
      simpa [List.isEmpty_iff] using h
    simp [syncTodoStep, he]
  · intro h
    simp [syncTodoStep, h]

/-- Witness for C8's amended theorem at a concrete non-empty snapshot. -/
theorem sync_overwrites_iff_nonempty_witness :
    loadTodoFromJson storeDone ≠ [] ∧
    (syncTodoStep storeDone agent0).context.todo_list = loadTodoFromJson storeDone :=
  ⟨by decide, (sync_overwrites_iff_nonempty envOk runChildNoop storeDone agent0).1 (by decide)⟩

/-- Claim C2 counterexample: a model response carrying the explicit completion
signal, with an empty todo list, does not make the loop exit — it keeps
iterating until the fuel runs out, refuting the completion-signal disjunct of
the claimed exit condition. -/
theorem completion_signal_does_not_exit :
    (envSignal.modelResponse agent0.context.messages).completion_signal = true ∧
    agent0.context.todo_list = [] ∧
    (procLoop envSignal runChildNoop 5 agent0 []).1 = RunOutcome.outOfFuel :=
  ⟨rfl, rfl, rfl⟩

/-- Claim C2 (amended): the processing loop exits exactly when the todo list
is non-empty and every item is completed — whenever the loop completes, the
final state satisfies `_should_exit`; whenever an iteration produces a state
satisfying it, the loop exits with that iteration; and `_should_exit` holds
iff the todo list is non-empty with all items completed.  The model's
completion signal plays no role, and an empty todo list never exits. -/
theorem loop_exit_iff_todos_done :
    (∀ (env : Env) (runChild : RunChild) (fuel : Nat) (agent : Agent) (store : Store)
        (agent' : Agent) (store' : Store),
        procLoop env runChild fuel agent store = (RunOutcome.completed, agent', store') →
        shouldExit agent' = true) ∧
    (∀ (env : Env) (runChild : RunChild) (fuel : Nat) (agent : Agent) (store : Store),
        shouldExit (processingIteration env runChild agent store).1 = true →
        procLoop env runChild (fuel + 1) agent store =
          (RunOutcome.completed, (processingIteration env runChild agent store).1,
            (processingIteration env runChild agent store).2)) ∧
    (∀ agent : Agent, shouldExit agent = true ↔
        agent.context.todo_list ≠ [] ∧ ∀ t ∈ agent.context.todo_list, t.completed = true) := by
  refine ⟨?_, ?_, ?_⟩
  · intro env runChild fuel
    induction fuel with
    | zero =>
      intro agent store agent' store' h
      simp [procLoop] at h
    | succ n ih =>
      intro agent store agent' store' h
      simp only [procLoop] at h
      by_cases hx : shouldExit (processingIteration env runChild agent store).1 = true
      · rw [if_pos hx] at h
        have h2 : (processingIteration env runChild agent store).1 = agent' :=
          congrArg (fun p => p.2.1) h
        exact h2 ▸ hx
      · rw [if_neg hx] at h
        exact ih _ _ _ _ h
  · intro env runChild fuel agent store hx
    simp only [procLoop]
    rw [if_pos hx]
  · intro agent
    simp only [shouldExit, Bool.and_eq_true, List.all_eq_true, decide_eq_true_eq,
      List.length_pos, and_comm]

/-- Witness for C2's amended theorem: a store whose snapshot is all-completed
makes the loop exit after one iteration. -/
theorem loop_exit_iff_todos_done_witness :
    shouldExit (processingIteration envOk runChildNoop agent0 storeDone).1 = true ∧
    procLoop envOk runChildNoop 1 agent0 storeDone =
      (RunOutcome.completed, (processingIteration envOk runChildNoop agent0 storeDone).1,
        (processingIteration envOk runChildNoop agent0 storeDone).2) :=
  ⟨by decide, loop_exit_iff_todos_done.2.1 envOk runChildNoop 0 agent0 storeDone (by decide)⟩

/-- Claim C3: a `Task` dispatch starts the child on a fresh context holding
exactly one user message (the task description) and an empty todo list, with
the four metadata fields taken from the parent and depth one more than the
parent; and afterwards the parent's context has gained exactly the single
folded final-result message — whatever the child's run did, none of its
intermediate messages appear in the parent. -/
theorem task_dispatch_isolation (env : Env) (runChild : RunChild) (parent : Agent)
    (store : Store) (tool_call : ToolCallV) (task_description : String)
    (h : tool_call.tool = "Task")
    (hd : dictGet tool_call.params "task" "" = task_description) :
    (spawnChildInit parent task_description).context.messages =
        [⟨Role.user, task_description, none⟩] ∧
    (spawnChildInit parent task_description).context.todo_list = [] ∧
    (spawnChildInit parent task_description).context.current_directory =
        parent.context.current_directory ∧
    (spawnChildInit parent task_description).context.claude_md_content =
        parent.context.claude_md_content ∧
    (spawnChildInit parent task_description).context.recent_commits =
        parent.context.recent_commits ∧
    (spawnChildInit parent task_description).context.platform_info =
        parent.context.platform_info ∧
    (spawnChildInit parent task_description).sub_agent_depth = parent.sub_agent_depth + 1 ∧
    (dispatchOne env runChild parent store tool_call).1.context.messages =
      parent.context.messages ++
        [⟨Role.assistant, "Task completed",
          some [ToolResultV.taskResult task_description
            (env.extractFinalResult
              (runChild (spawnChildInit parent task_description) store
                task_description).1.context)]⟩] ∧
    (dispatchOne env runChild parent store tool_call).1.context.todo_list =
      parent.context.todo_list ∧
    (dispatchOne env runChild parent store tool_call).2 =
      (runChild (spawnChildInit parent task_description) store task_description).2 := by
  subst hd
  refine ⟨rfl, rfl, rfl, rfl, rfl, rfl, rfl, ?_, ?_, ?_⟩ <;> simp [dispatchOne, h]

/-- Witness for C3 at a concrete `Task` call from a parent that holds a
pending todo item. -/
theorem task_dispatch_isolation_witness :
    (spawnChildInit agentWithTodo "find all TODOs").context.messages =
        [⟨Role.user, "find all TODOs", none⟩] ∧
    (spawnChildInit agentWithTodo "find all TODOs").context.todo_list = [] ∧
    (dispatchOne envOk runChildNoop agentWithTodo [] taskCall).1.context.messages =
      agentWithTodo.context.messages ++
        [⟨Role.assistant, "Task completed",
          some [ToolResultV.taskResult "find all TODOs"
            (envOk.extractFinalResult
              (runChildNoop (spawnChildInit agentWithTodo "find all TODOs") []
                "find all TODOs").1.context)]⟩] := by
  have h := task_dispatch_isolation envOk runChildNoop agentWithTodo [] taskCall
    "find all TODOs" rfl rfl
  exact ⟨h.1, h.2.1, h.2.2.2.2.2.2.2.1⟩

/-- In a list of strings sorted by `≤`, every member is at most the last
element. -/
theorem sorted_le_getLast (l : List String)
    (hs : List.Sorted (fun a b => a ≤ b) l) :
    ∀ x ∈ l, ∀ (h : l ≠ []), x ≤ l.getLast h := by
  induction l with
  | nil => intro x hx; exact absurd hx (List.not_mem_nil x)
  | cons a t ih =>
    intro x hx h
    rcases List.sorted_cons.mp hs with ⟨ha, ht⟩
    rcases List.mem_cons.mp hx with rfl | hxt
    · rcases eq_or_ne t [] with rfl | hne
      · exact le_rfl
      · rw [List.getLast_cons hne]
        exact ha _ (List.getLast_mem hne)
    · rcases eq_or_ne t [] with rfl | hne
      · exact absurd hxt (List.not_mem_nil x)
      · rw [List.getLast_cons hne]
        exact ih ht x hxt hne

/-- Claim C7: todo load returns `[]` (not an error) when no `.json` snapshot
exists; when at least one exists it decodes a store entry whose filename is
lexicographically greatest among all snapshot filenames; and decoding
reassigns ids by 0-based position and defaults a missing `completed` field to
`false`. -/
theorem load_todo_spec (store : Store) :
    (snapshotNames store = [] → loadTodoFromJson store = []) ∧
    (snapshotNames store ≠ [] →
      ∃ name data, (name, data) ∈ store ∧ name ∈ snapshotNames store ∧
        (∀ other ∈ snapshotNames store, other ≤ name) ∧
        loadTodoFromJson store = decodeTodoItems data) ∧
    (∀ (data : List TodoJson) (i : Nat),
      (decodeTodoItems data)[i]? =
        data[i]?.map (fun item => ⟨i, item.description, item.completed.getD false⟩)) := by
  refine ⟨?_, ?_, ?_⟩
  · intro h
    simp [loadTodoFromJson, h]
  · intro h
    set sortedNames := @List.insertionSort String (fun a b => a ≤ b) strLeRel (snapshotNames store)
      with hsn
    have hperm : List.Perm sortedNames (snapshotNames store) := by
      rw [hsn]
      exact @List.perm_insertionSort String (fun a b => a ≤ b) strLeRel (snapshotNames store)
    have hsne : sortedNames ≠ [] := by
      intro hnil
      rw [hnil] at hperm
      exact h hperm.symm.eq_nil
    have hsorted : List.Sorted (fun a b : String => a ≤ b) sortedNames := by
      rw [hsn]
      exact @List.sorted_insertionSort String (fun a b => a ≤ b) strLeRel
        inferInstance inferInstance (snapshotNames store)
    set name := sortedNames.getLast hsne with hname
    have hlast : sortedNames.getLast? = some name := List.getLast?_eq_getLast _ hsne
    have hmem_names : name ∈ snapshotNames store :=
      hperm.subset (List.getLast_mem hsne)
    have hmax : ∀ other ∈ snapshotNames store, other ≤ name := by
      intro other ho
      exact sorted_le_getLast sortedNames hsorted other (hperm.mem_iff.mpr ho) hsne
    have hmem_map : name ∈ store.map Prod.fst := (List.mem_filter.mp hmem_names).1
    obtain ⟨entry, hentry, hfst⟩ := List.mem_map.mp hmem_map
    rcases hfind : store.find? (fun e => e.1 == name) with _ | e
    · exact absurd (by simpa using hfst)
        (by simpa using List.find?_eq_none.mp hfind entry hentry)
    · have he1 : e.1 = name := by simpa using List.find?_some hfind
      have hes : e ∈ store := List.mem_of_find?_eq_some hfind
      refine ⟨name, e.2, ?_, hmem_names, hmax, ?_⟩
      · obtain ⟨a, b⟩ := e
        simp only at he1
        exact he1 ▸ hes
      · simp only [loadTodoFromJson, ← hsn, hlast, hfind]
  · intro data i
    rcases hdi : data[i]? with _ | item <;>
      simp [decodeTodoItems, List.getElem?_map, List.getElem?_enum, hdi]

/-- Witness for C7: a store with two snapshots and one non-snapshot file —
the later snapshot is decoded, with position ids and `completed` defaulting
to `false`. -/
theorem load_todo_spec_witness :
    snapshotNames storeTwo ≠ [] ∧
    (∃ name data, (name, data) ∈ storeTwo ∧ name ∈ snapshotNames storeTwo ∧
      (∀ other ∈ snapshotNames storeTwo, other ≤ name) ∧
      loadTodoFromJson storeTwo = decodeTodoItems data) ∧
    loadTodoFromJson storeTwo = [⟨0, "write tests", false⟩] :=
  ⟨by decide, (load_todo_spec storeTwo).2.1 (by decide), by decide⟩

end MainLoop
